/-
Verification of the connection-lifecycle manager of the zbx_plugin_mysql
Zabbix agent2 plugin, by a shallow embedding of its Go source into Lean 4.

The repository contains several variants of the manager:
  * `conn.go` keys the connection cache by `*mysql.Config` (a pointer);
  * the variant in `unnamed/part_000` keys the cache by the canonical
    connection string `uri.FormatDSN()` and adds kill-detection on the
    hit path (re-ping, substring match on the error message, eviction);
  * `uri.go` resolves raw connection strings via the driver's `ParseDSN`
    and substitutes plugin-wide defaults for empty fields;
  * `mysql.go` implements the `Export` entry point of the plugin.

Network and database effects (sql.Open, Ping, Close, query execution) are
modelled as explicit environment inputs: each operation receives the
outcome the Go runtime would have produced for it.  Map iteration order,
unspecified in Go, is modelled by list order (a deterministic refinement).
Time is modelled as a natural number of seconds.
-/
import Mathlib

set_option autoImplicit false

/-! ## The driver configuration (`mysql.Config` of go-sql-driver/mysql)

Only the fields the plugin reads or writes are modelled: `User`, `Passwd`,
`Net`, `Addr`, `DBName`.  DSN query parameters (`?param=value`), TLS and
collation settings are not used by the plugin and are not modelled; the
parameter section of a DSN is skipped exactly where the driver's scanner
skips it. -/

structure MysqlConfig where
  user   : String
  passwd : String
  net    : String
  addr   : String
  dbName : String
deriving DecidableEq, Repr

/-- `Config.FormatDSN` of go-sql-driver/mysql, restricted to the modelled
fields: `[username[:password]@][protocol[(address)]]/dbname`. -/
def MysqlConfig.formatDSN (cfg : MysqlConfig) : String :=
  (if cfg.user ≠ "" then
    cfg.user ++ (if cfg.passwd ≠ "" then ":" ++ cfg.passwd else "") ++ "@"
  else "")
  ++ (if cfg.net ≠ "" then
        cfg.net ++ (if cfg.addr ≠ "" then "(" ++ cfg.addr ++ ")" else "")
      else "")
  ++ "/" ++ cfg.dbName

/-! ### `ParseDSN` (go-sql-driver/mysql dsn.go)

The driver scans the DSN from the right for the last `/`, splits the left
part at the last `@` into credentials and `protocol(address)`, and the
credentials at the first `:` into user and password.  An empty DSN is
accepted (the slash check only fires for non-empty input) and yields the
driver defaults via `normalize`. -/

/-- Index of the last occurrence of `c` in `l`, if any. -/
def lastIdxOf (c : Char) (l : List Char) : Option Nat :=
  match l.reverse.findIdx? (fun x => x = c) with
  | none => none
  | some r => some (l.length - 1 - r)

/-- Index of the first occurrence of `c` in `l`, if any. -/
def firstIdxOf (c : Char) (l : List Char) : Option Nat :=
  l.findIdx? (fun x => x = c)

/-- `ensureHavePort`: append the default port when the address has none.
(The driver uses `net.SplitHostPort`; for the address shapes the plugin
produces this is equivalent to checking for a `:`.) -/
def ensureHavePort (addr : String) : String :=
  if addr.toList.contains ':' then addr else addr ++ ":3306"

/-- `Config.normalize` of the driver, restricted to the modelled fields:
default network `tcp`, default address per network, default port. -/
def MysqlConfig.normalize (cfg : MysqlConfig) : Except String MysqlConfig :=
  let cfg := if cfg.net = "" then { cfg with net := "tcp" } else cfg
  if cfg.addr = "" then
    match cfg.net with
    | "tcp" => .ok { cfg with addr := "127.0.0.1:3306" }
    | "unix" => .ok { cfg with addr := "/tmp/mysql.sock" }
    | _ => .error "default addr for network net unknown"
  else if cfg.net = "tcp" then
    .ok { cfg with addr := ensureHavePort cfg.addr }
  else
    .ok cfg

/-- `mysql.ParseDSN`: parse `[user[:passwd]@][net[(addr)]]/dbname[?...]`. -/
def mysqlParseDSN (dsn : String) : Except String MysqlConfig :=
  let s := dsn.toList
  match lastIdxOf '/' s with
  | none =>
    if s.length > 0 then
      .error "invalid DSN: missing the slash separating the database name"
    else
      MysqlConfig.normalize ⟨"", "", "", "", ""⟩
  | some i =>
    let left := s.take i
    let right := s.drop (i + 1)
    -- split the left part at the last '@' into credentials and protocol
    let credsProto : (List Char × List Char × List Char) :=
      match lastIdxOf '@' left with
      | none => ([], [], left)
      | some j =>
        let creds := left.take j
        match firstIdxOf ':' creds with
        | none => (creds, [], left.drop (j + 1))
        | some k => (creds.take k, creds.drop (k + 1), left.drop (j + 1))
    let userCs := credsProto.1
    let passCs := credsProto.2.1
    let proto := credsProto.2.2
    -- split the protocol part at the first '(' into net and (addr)
    let netAddr : Except String (List Char × List Char) :=
      match firstIdxOf '(' proto with
      | none => .ok (proto, [])
      | some k =>
        -- the character before the slash must close the address
        if proto.getLast? = some ')' then
          .ok (proto.take k, (proto.drop (k + 1)).dropLast)
        else if (proto.drop (k + 1)).contains ')' then
          .error "invalid DSN: did you forget to escape a param value?"
        else
          .error "invalid DSN: network address not terminated (missing closing brace)"
    match netAddr with
    | .error e => .error e
    | .ok (netCs, addrCs) =>
      -- the database name runs to the first '?' (parameters are skipped)
      let dbCs :=
        match firstIdxOf '?' right with
        | none => right
        | some q => right.take q
      MysqlConfig.normalize
        ⟨String.mk userCs, String.mk passCs, String.mk netCs,
         String.mk addrCs, String.mk dbCs⟩

/-! ## Errors

The plugin's error values (defined beside the sources) are modelled as an
inductive: the manager-produced distinguished errors, the parameter and
metric errors of `Export`, and passthrough driver/network errors carrying
their message text. -/

inductive DBErr where
  | driver (msg : String)
  | connectionNotFound
  | connectionKilled
  | parameterNotURI
  | tooManyParameters
  | tooFewParameters
  | dbnameMissing
  | unknownDBname
deriving DecidableEq, Repr

/-- Boolean substring test used to model `strings.Contains`. -/
def listIsSubseg {α : Type} [DecidableEq α] : List α → List α → Bool
  | _, [] => false
  | pat, x :: xs => pat.isPrefixOf (x :: xs) || listIsSubseg pat xs

/-- `strings.Contains (s, pat)`, also true for the empty pattern. -/
def strContains (s pat : String) : Bool :=
  pat.toList.isEmpty || listIsSubseg pat.toList s.toList

/-- The kill-detection predicate of `GetConnection` in `unnamed/part_000`:
`strings.Contains(err.Error(), "Connection was killed")`. -/
def isKilledMsg (msg : String) : Bool :=
  strContains msg "Connection was killed"

/-! ## The connection manager of `unnamed/part_000`

This is the variant whose cache is keyed by the canonical connection
string `uri.FormatDSN()` and whose `GetConnection` re-pings a cached
connection and evicts it when the server reports it killed.  The package
level counter `var id = 1` is carried in the manager state as `nextId`.
The map is modelled as an association list with string keys; the handle
(`client *sql.DB`) has no modelled state of its own — its `Ping`/`Close`
outcomes come from the environment. -/

structure DbConn where
  id             : Nat
  lastTimeAccess : Nat
deriving DecidableEq, Repr

structure ConnManager where
  connections : List (String × DbConn)
  keepAlive   : Nat
  timeout     : Nat
  nextId      : Nat
deriving DecidableEq, Repr

/-- Outcomes of the network operations a single `GetConnection` call can
perform: `sql.Open` of a fresh handle, `Ping` of the fresh handle, `Ping`
of the cached handle, `Close` of the cached handle (the kill path).
`none` means success; `some msg` the error the Go runtime returned. -/
structure NetEnv where
  openRes  : Option String
  pingNew  : Option String
  pingOld  : Option String
  closeRes : Option String

/-- Result of `create`/`GetConnection`: Go's `panic` is a distinguished
outcome, otherwise the `(conn, err)` pair together with the manager state
after the call. -/
inductive ConnResult where
  | panicked (msg : String)
  | failure (e : DBErr) (c : ConnManager)
  | success (conn : DbConn) (c : ConnManager)
deriving DecidableEq, Repr

/-- Go map lookup `c.connections[dsn]`. -/
def lookupConn (l : List (String × DbConn)) (k : String) : Option DbConn :=
  (l.find? (fun e => e.1 = k)).map (·.2)

/-- Replace the value stored under key `k` (used to model the in-place
mutation `conn.updateAccessTime()` on the record found in the map). -/
def replaceConn (l : List (String × DbConn)) (k : String) (v : DbConn) :
    List (String × DbConn) :=
  l.map (fun e => if e.1 = k then (e.1, v) else e)

/-- `get` (part_000): on a hit, update `lastTimeAccess` and return the
record; on a miss return `errorConnectionNotFound`. -/
def connGet (c : ConnManager) (uri : MysqlConfig) (now : Nat) :
    Except DBErr DbConn × ConnManager :=
  let dsn := uri.formatDSN
  match lookupConn c.connections dsn with
  | some conn =>
    let conn' := { conn with lastTimeAccess := now }
    (.ok conn', { c with connections := replaceConn c.connections dsn conn' })
  | none => (.error .connectionNotFound, c)

/-- `create` (part_000): panic if the key is already present, else open
and ping a fresh handle; insert the timestamped record only when both
succeed. -/
def connCreate (c : ConnManager) (uri : MysqlConfig) (now : Nat)
    (env : NetEnv) : ConnResult :=
  let dsn := uri.formatDSN
  match lookupConn c.connections dsn with
  | some _ => .panicked "connection already exists"
  | none =>
    match env.openRes with
    | some msg => .failure (.driver msg) c
    | none =>
      match env.pingNew with
      | some msg => .failure (.driver msg) c
      | none =>
        let conn : DbConn := { id := c.nextId, lastTimeAccess := now }
        .success conn
          { c with connections := c.connections ++ [(dsn, conn)],
                   nextId := c.nextId + 1 }

/-- `delete` (part_000): close the cached handle and, only when the close
succeeds, remove the map entry; return the close error otherwise. -/
def connDelete (c : ConnManager) (uri : MysqlConfig) (env : NetEnv) :
    Option DBErr × ConnManager :=
  let dsn := uri.formatDSN
  match lookupConn c.connections dsn with
  | some _ =>
    match env.closeRes with
    | none =>
      (none, { c with connections := c.connections.filter (fun e => ¬ e.1 = dsn) })
    | some msg => (some (.driver msg), c)
  | none => (none, c)

/-- `GetConnection` (part_000): get-or-create; on a hit, re-ping the
cached handle, classify a failure by substring match on the message, and
on kill-detection call `delete` — returning `errorConnectionKilled` only
when the delete (close) succeeded, the raw ping error otherwise. -/
def getConnection (c : ConnManager) (uri : MysqlConfig) (now : Nat)
    (env : NetEnv) : ConnResult :=
  match connGet c uri now with
  | (.error _, c1) => connCreate c1 uri now env
  | (.ok conn, c1) =>
    match env.pingOld with
    | none => .success conn c1
    | some msg =>
      if isKilledMsg msg then
        match connDelete c1 uri env with
        | (none, c2) => .failure .connectionKilled c2
        | (some _, c2) => .failure (.driver msg) c2
      else
        .failure (.driver msg) c1

/-- One step of the `closeUnused` range loop on one map entry, carrying
the rebuilt map and the named return value `err` (which is assigned on
every close attempt, successful or not). -/
def closeUnusedStep (keepAlive now : Nat) (closeRes : String → Option String)
    (acc : List (String × DbConn) × Option DBErr) (e : String × DbConn) :
    List (String × DbConn) × Option DBErr :=
  if now - e.2.lastTimeAccess > keepAlive then
    match closeRes e.1 with
    | none => (acc.1, none)
    | some msg => (acc.1 ++ [e], some (.driver msg))
  else
    (acc.1 ++ [e], acc.2)

/-- `closeUnused` (part_000 and `conn.go`): close every record idle
strictly longer than `keepAlive`, removing it only when the close
succeeds; return whatever the last close attempt left in `err`. -/
def closeUnused (c : ConnManager) (now : Nat)
    (closeRes : String → Option String) : ConnManager × Option DBErr :=
  let r := c.connections.foldl (closeUnusedStep c.keepAlive now closeRes) ([], none)
  ({ c with connections := r.1 }, r.2)

/-- The entries of one sweep pass whose idle time exceeds `keepAlive`,
i.e. those the loop attempts to close. -/
def sweepAttempts (c : ConnManager) (now : Nat) : List (String × DbConn) :=
  c.connections.filter (fun e => now - e.2.lastTimeAccess > c.keepAlive)

/-- The value `closeUnused` surfaces: the outcome of the last attempted
close, `none` when no close was attempted. -/
def lastCloseOutcome (c : ConnManager) (now : Nat)
    (closeRes : String → Option String) : Option DBErr :=
  match (sweepAttempts c now).getLast? with
  | none => none
  | some e => (closeRes e.1).map .driver

/-- One pass of the idle reaper: the sweep time and the close outcomes
the runtime produces for that pass. -/
structure SweepPass where
  now      : Nat
  closeRes : String → Option String

/-- Repeated sweeps of the idle reaper (one `closeUnused` per tick). -/
def runSweeps (c : ConnManager) : List SweepPass → ConnManager
  | [] => c
  | p :: ps => runSweeps (closeUnused c p.now p.closeRes).1 ps

/-! ## The connection manager variant of `conn.go`

Here the cache is `map[*mysql.Config]*dbConn`: the key is the pointer to
the configuration, so Go compares keys by pointer identity, not by the
configuration's value.  A pointer is modelled as a heap address paired
with the pointed-to value; map key equality is address equality, exactly
as in Go.  This variant's `GetConnection` has no re-ping on the hit path.
-/

structure ConfigPtr where
  addr : Nat
  val  : MysqlConfig
deriving DecidableEq, Repr

structure DbConnP where
  lastTimeAccess : Nat
deriving DecidableEq, Repr

structure ConnManagerP where
  connections : List (ConfigPtr × DbConnP)
  keepAlive   : Nat
  timeout     : Nat
deriving DecidableEq, Repr

inductive ConnResultP where
  | panicked (msg : String)
  | failure (e : DBErr) (c : ConnManagerP)
  | success (conn : DbConnP) (c : ConnManagerP)
deriving DecidableEq, Repr

/-- Go map lookup `c.connections[uri]` with a pointer key: two keys
collide exactly when they are the same pointer (same address). -/
def lookupConnP (l : List (ConfigPtr × DbConnP)) (p : ConfigPtr) : Option DbConnP :=
  (l.find? (fun e => e.1.addr = p.addr)).map (·.2)

/-- `get` (conn.go): on a hit refresh `lastTimeAccess` and return the
record, else return nil. -/
def connGetP (c : ConnManagerP) (p : ConfigPtr) (now : Nat) :
    Option DbConnP × ConnManagerP :=
  match lookupConnP c.connections p with
  | some _ =>
    let conn' : DbConnP := { lastTimeAccess := now }
    (some conn',
     { c with connections :=
        c.connections.map (fun e => if e.1.addr = p.addr then (e.1, conn') else e) })
  | none => (none, c)

/-- `create` (conn.go): panic on a present key, else open and ping a
fresh handle and insert the record under the pointer key. -/
def connCreateP (c : ConnManagerP) (p : ConfigPtr) (now : Nat)
    (env : NetEnv) : ConnResultP :=
  match lookupConnP c.connections p with
  | some _ => .panicked "connection already exists"
  | none =>
    match env.openRes with
    | some msg => .failure (.driver msg) c
    | none =>
      match env.pingNew with
      | some msg => .failure (.driver msg) c
      | none =>
        let conn : DbConnP := { lastTimeAccess := now }
        .success conn
          { c with connections := c.connections ++ [(p, conn)] }

/-- `GetConnection` (conn.go): get, and on a miss create — no re-ping of
a cached connection in this variant. -/
def getConnectionP (c : ConnManagerP) (p : ConfigPtr) (now : Nat)
    (env : NetEnv) : ConnResultP :=
  match connGetP c p now with
  | (some conn, c1) => .success conn c1
  | (none, c1) => connCreateP c1 p now env

/-! ## `getURI` (the second half of `uri.go`)

`getURI` feeds the raw connection string to `net/url.Parse` and accepts
its result only for scheme `tcp` with a non-empty host or scheme `unix`
with a non-empty opaque part.  `url.Parse` is external library code; its
outcome is an input of the model: either a parse error (propagated as-is)
or the parsed URL's scheme/opaque/user/password/host fields. -/

structure ParsedURL where
  scheme   : String
  opq      : String  -- the URL's encoded `Opaque` component
  username : String
  password : String
  host     : String
deriving DecidableEq, Repr

/-- The repository's `uri` structure filled by `getURI`. -/
structure UriParts where
  scheme   : String
  opq      : String  -- the URL's encoded `Opaque` component
  user     : String
  password : String
  host     : String
deriving DecidableEq, Repr

/-- `getURI`: switch on the parsed scheme; `tcp` needs a non-empty host,
`unix` a non-empty opaque path, everything else is
`errorParameterNotURI` (the spec's `InvalidAddress`). -/
def getURI (parseRes : Except String ParsedURL) : Except DBErr UriParts :=
  match parseRes with
  | .error e => .error (.driver e)
  | .ok u =>
    if u.scheme = "tcp" then
      if u.host = "" then .error .parameterNotURI
      else .ok ⟨u.scheme, u.opq, u.username, u.password, u.host⟩
    else if u.scheme = "unix" then
      if u.opq = "" then .error .parameterNotURI
      else .ok ⟨u.scheme, u.opq, u.username, u.password, u.host⟩
    else .error .parameterNotURI

/-! ## `newURIWithCreds` (`uri.go`)

Resolves a raw connection string against the plugin-wide defaults: parse
it with `ParseDSN`; when the raw string is empty, re-parse the default
URI and take its address; substitute the default user and password for
empty credential fields. -/

structure PluginOpts where
  uri      : String
  user     : String
  password : String
deriving DecidableEq, Repr

def newURIWithCreds (uri : String) (opt : PluginOpts) :
    Except String MysqlConfig :=
  match mysqlParseDSN uri with
  | .error e => .error e
  | .ok cfg0 =>
    let withAddr : Except String MysqlConfig :=
      if uri.length = 0 then
        match mysqlParseDSN opt.uri with
        | .error e => .error e
        | .ok c => .ok { cfg0 with addr := c.addr }
      else .ok cfg0
    match withAddr with
    | .error e => .error e
    | .ok cfg1 =>
      let cfg2 := if cfg1.user = "" then { cfg1 with user := opt.user } else cfg1
      let cfg3 := if cfg2.passwd = "" then { cfg2 with passwd := opt.password } else cfg2
      .ok cfg3

/-! ## The `Export` entry point (`mysql.go`)

`Export` checks the parameter count against the metric table, resolves
the first parameter to a configuration (session lookup, then raw address
with default substitution), obtains a connection from the manager, and
runs the metric's query.  A lookup of an unknown key in the Go map
`keys` yields the zero value of the `key` struct.  `getConfigDSN`,
`getOne` and `getJSON` (configuration resolution from a session, query
execution) live outside the manager; their outcomes are environment
inputs of the model.  Go's out-of-range slice access is a distinguished
`panicked` outcome. -/

structure KeyProps where
  query     : String
  minParams : Nat
  maxParams : Nat
  jsonFlag  : Bool
  lld       : Bool
deriving DecidableEq, Repr

/-- The metric table `keys` of `mysql.go`. -/
def keysTable : List (String × KeyProps) :=
  [("mysql.get_status_variables", ⟨"show global status", 1, 1, true, false⟩),
   ("mysql.ping", ⟨"select '1'", 1, 1, false, false⟩),
   ("mysql.version", ⟨"select version()", 1, 1, false, false⟩),
   ("mysql.db.discovery", ⟨"show databases", 1, 1, true, true⟩),
   ("mysql.dbsize",
    ⟨"select sum(data_length + index_length) as size from information_schema.tables where table_schema=?",
     2, 2, false, false⟩),
   ("mysql.replication.discovery", ⟨"show slave status", 1, 1, true, true⟩),
   ("mysql.slave_status", ⟨"show slave status", 2, 2, true, false⟩)]

/-- The zero value of the `key` struct: what `keys[key]` yields in Go
when `key` is not in the map. -/
def keyZero : KeyProps := ⟨"", 0, 0, false, false⟩

/-- Go map lookup `keys[key]` (zero value on a missing key). -/
def keysGet (k : String) : KeyProps :=
  ((keysTable.find? (fun e => e.1 = k)).map (·.2)).getD keyZero

/-- The sentinel `pingFailed = "0"`. -/
def pingFailed : String := "0"

/-- A named session from the plugin configuration. -/
structure Session where
  uri      : String
  user     : String
  password : String
deriving DecidableEq, Repr

/-- The slice of `PluginOptions` that `Export` reads. -/
structure ExportOpts where
  uri      : String
  user     : String
  password : String
  sessions : String → Option Session

/-- Environment of one `Export` call: outcomes of `getConfigDSN`, of
`connMgr.GetConnection`, and of the query helpers `getOne`/`getJSON`. -/
structure ExportEnv where
  getConfigDSN  : Session → Except DBErr MysqlConfig
  getConnection : MysqlConfig → Except DBErr DbConn
  getOne        : DbConn → KeyProps → String → Except DBErr String
  getJSON       : DbConn → KeyProps → Except DBErr String

inductive ExportResult where
  | panicked (msg : String)
  | failure (e : DBErr)
  | success (value : String)
deriving Repr

/-- The configuration-resolution block of `Export`: session lookup on
`params[0]`; on a miss, treat `params[0]` as a raw address, substituting
the plugin default when it is empty, and resolve with the default
credentials. -/
def resolveConfig (opts : ExportOpts) (env : ExportEnv) (p0 : String) :
    Except DBErr MysqlConfig :=
  match opts.sessions p0 with
  | some session => env.getConfigDSN session
  | none =>
    let url := if p0.length = 0 then opts.uri else p0
    env.getConfigDSN ⟨url, opts.user, opts.password⟩

/-- `Export` (`mysql.go`): parameter-count checks against the metric
table, configuration resolution, `GetConnection` with the `mysql.ping`
sentinel special case, then the per-metric query dispatch. -/
def Export (opts : ExportOpts) (env : ExportEnv) (key : String)
    (params : List String) : ExportResult :=
  if params.length > (keysGet key).maxParams then .failure .tooManyParameters
  else if params.length < (keysGet key).minParams then .failure .tooFewParameters
  else
    match params.head? with
    | none => .panicked "runtime error: index out of range"
    | some p0 =>
      match resolveConfig opts env p0 with
      | .error e => .failure e
      | .ok cfg =>
        match env.getConnection cfg with
        | .error e =>
          if key = "mysql.ping" then .success pingFailed else .failure e
        | .ok conn =>
          let keyProperties := keysGet key
          if key = "mysql.dbsize" then
            match params.get? 1 with
            | none => .panicked "runtime error: index out of range"
            | some p1 =>
              if p1.length = 0 then .failure .dbnameMissing
              else
                match env.getOne conn keyProperties p1 with
                | .error e => .failure e
                | .ok v => .success v
          else if keyProperties.jsonFlag then
            match env.getJSON conn keyProperties with
            | .error e => .failure e
            | .ok v => .success v
          else
            match env.getOne conn keyProperties "" with
            | .error e => .failure e
            | .ok v => .success v

/-- The manager state after the hit path of `get` refreshed the found
record's `lastTimeAccess` (the in-place `conn.updateAccessTime()`). -/
def refreshEntry (c : ConnManager) (dsn : String) (conn : DbConn) (now : Nat) :
    ConnManager :=
  { c with connections := replaceConn c.connections dsn ({ conn with lastTimeAccess := now }) }

/-- The manager state after `delete` removed the entry under `dsn`. -/
def dropEntry (c : ConnManager) (dsn : String) : ConnManager :=
  { c with connections := c.connections.filter (fun e => ¬ e.1 = dsn) }

/-! ## Helper lemmas on the association-list map operations -/

theorem lookupConn_replaceConn (l : List (String × DbConn)) (k : String)
    (v : DbConn) :
    lookupConn (replaceConn l k v) k = (lookupConn l k).map (fun _ => v) := by
  induction l with
  | nil => rfl
  | cons e t ih =>
    by_cases hk : e.1 = k
    · simp [lookupConn, replaceConn, List.find?_cons, hk, -List.find?_map]
    · simp only [lookupConn, replaceConn, List.map_cons, List.find?_cons, if_neg hk]
      have hd : (decide (e.1 = k)) = false := by simp [hk]
      rw [hd]
      exact ih

theorem lookupConn_filterNe (l : List (String × DbConn)) (k : String) :
    lookupConn (l.filter (fun e => ¬ e.1 = k)) k = none := by
  induction l with
  | nil => rfl
  | cons e t ih =>
    by_cases hk : e.1 = k
    · simpa [List.filter_cons, hk] using ih
    · have hd : (decide (e.1 = k)) = false := by simp [hk]
      simp only [List.filter_cons, hk, not_false_eq_true, decide_eq_true_eq, if_pos,
        lookupConn, List.find?_cons, hd]
      exact ih

/-! ## Claim theorems -/

/-- C1: the claim says identity is value-based — two identity values built
independently from the same inputs must yield equal cache keys, so
`GetConnection` for structurally identical configurations resolves to the
same cache entry.  The `conn.go` variant keys the cache by the pointer
`*mysql.Config`: here two pointers (heap addresses 1 and 2) to configs
that are field-for-field equal — hence with equal canonical connection
strings — miss each other in the cache, and two `GetConnection` calls
produce two live records for the one identity. -/
theorem connGo_pointerKey_duplicatesIdenticalConfigs :
    (ConfigPtr.mk 1 ⟨"root", "pwd", "tcp", "localhost:3306", ""⟩).val =
      (ConfigPtr.mk 2 ⟨"root", "pwd", "tcp", "localhost:3306", ""⟩).val ∧
    (ConfigPtr.mk 1 ⟨"root", "pwd", "tcp", "localhost:3306", ""⟩).val.formatDSN =
      (ConfigPtr.mk 2 ⟨"root", "pwd", "tcp", "localhost:3306", ""⟩).val.formatDSN ∧
    lookupConnP [(⟨1, ⟨"root", "pwd", "tcp", "localhost:3306", ""⟩⟩, ⟨100⟩)]
      ⟨2, ⟨"root", "pwd", "tcp", "localhost:3306", ""⟩⟩ = none ∧
    getConnectionP ⟨[], 300, 3⟩ ⟨1, ⟨"root", "pwd", "tcp", "localhost:3306", ""⟩⟩ 100
      ⟨none, none, none, none⟩ =
      .success ⟨100⟩ ⟨[(⟨1, ⟨"root", "pwd", "tcp", "localhost:3306", ""⟩⟩, ⟨100⟩)], 300, 3⟩ ∧
    getConnectionP ⟨[(⟨1, ⟨"root", "pwd", "tcp", "localhost:3306", ""⟩⟩, ⟨100⟩)], 300, 3⟩
      ⟨2, ⟨"root", "pwd", "tcp", "localhost:3306", ""⟩⟩ 100 ⟨none, none, none, none⟩ =
      .success ⟨100⟩
        ⟨[(⟨1, ⟨"root", "pwd", "tcp", "localhost:3306", ""⟩⟩, ⟨100⟩),
          (⟨2, ⟨"root", "pwd", "tcp", "localhost:3306", ""⟩⟩, ⟨100⟩)], 300, 3⟩ := by
  refine ⟨rfl, rfl, ?_, ?_, ?_⟩ <;> decide

/-- C9: when the identity's key is already present in the connections
map, the internal `create` panics with "connection already exists" — it
neither returns a recoverable error nor replaces the record. -/
theorem connCreate_panicsOnExistingIdentity (c : ConnManager)
    (uri : MysqlConfig) (now : Nat) (env : NetEnv) (conn : DbConn)
    (h : lookupConn c.connections uri.formatDSN = some conn) :
    connCreate c uri now env = .panicked "connection already exists" := by
  simp only [connCreate, h]

/-- Witness for C9 at a concrete manager holding the identity's key. -/
theorem connCreate_panicsOnExistingIdentity_witness :
    connCreate ⟨[("u@tcp(h:3306)/", ⟨1, 50⟩)], 300, 3, 2⟩
      ⟨"u", "", "tcp", "h:3306", ""⟩ 100 ⟨none, none, none, none⟩ =
      .panicked "connection already exists" :=
  connCreate_panicsOnExistingIdentity _ _ _ _ ⟨1, 50⟩ (by decide)

/-- C3: when the identity is absent, `GetConnection` creates a new
handle and pings it; an open or ping failure is returned with the
connections map unchanged (the whole manager state is exactly the input
state — no partial record), and on success the timestamped record is
inserted under the canonical key. -/
theorem getConnection_absentPath (c : ConnManager) (uri : MysqlConfig)
    (now : Nat) (env : NetEnv)
    (habsent : lookupConn c.connections uri.formatDSN = none) :
    (∀ msg, env.openRes = some msg →
       getConnection c uri now env = .failure (.driver msg) c) ∧
    (∀ msg, env.openRes = none → env.pingNew = some msg →
       getConnection c uri now env = .failure (.driver msg) c) ∧
    (env.openRes = none → env.pingNew = none →
       getConnection c uri now env =
         .success ⟨c.nextId, now⟩
           { c with
             connections := c.connections ++ [(uri.formatDSN, ⟨c.nextId, now⟩)],
             nextId := c.nextId + 1 }) := by
  refine ⟨?_, ?_, ?_⟩
  · intro msg hopen
    simp only [getConnection, connGet, connCreate, habsent, hopen]
  · intro msg hopen hping
    simp only [getConnection, connGet, connCreate, habsent, hopen, hping]
  · intro hopen hping
    simp only [getConnection, connGet, connCreate, habsent, hopen, hping]

/-- Witness for C3: starting from an empty manager, an open failure and a
ping failure leave the state unchanged, and the all-success run inserts
the timestamped record. -/
theorem getConnection_absentPath_witness :
    getConnection ⟨[], 300, 3, 1⟩ ⟨"u", "", "tcp", "h:3306", ""⟩ 100
        ⟨some "dial tcp: connection refused", none, none, none⟩ =
      .failure (.driver "dial tcp: connection refused") ⟨[], 300, 3, 1⟩ ∧
    getConnection ⟨[], 300, 3, 1⟩ ⟨"u", "", "tcp", "h:3306", ""⟩ 100
        ⟨none, some "bad handshake", none, none⟩ =
      .failure (.driver "bad handshake") ⟨[], 300, 3, 1⟩ ∧
    getConnection ⟨[], 300, 3, 1⟩ ⟨"u", "", "tcp", "h:3306", ""⟩ 100
        ⟨none, none, none, none⟩ =
      .success ⟨1, 100⟩ ⟨[("u@tcp(h:3306)/", ⟨1, 100⟩)], 300, 3, 2⟩ :=
  ⟨(getConnection_absentPath _ _ _ _ (by decide)).1 _ rfl,
   (getConnection_absentPath _ _ _ _ (by decide)).2.1 _ rfl rfl,
   (getConnection_absentPath _ _ _ _ (by decide)).2.2 rfl rfl⟩

/-- C2 (amended): on a hit, `GetConnection` first refreshes the record's
`lastTimeAccess` (the refreshed record and map are what every later step
sees), then re-pings the handle.  A ping success returns the refreshed
record; a ping failure that does not match the kill condition is returned
as-is with the cache entry preserved; a kill-condition failure evicts the
record and returns `errorConnectionKilled` only when the close succeeds —
when the close fails, the entry stays in the map and the original ping
error is returned as-is. -/
theorem getConnection_presentPath (c : ConnManager) (uri : MysqlConfig)
    (now : Nat) (env : NetEnv) (conn : DbConn)
    (hfound : lookupConn c.connections uri.formatDSN = some conn) :
    (env.pingOld = none →
       getConnection c uri now env =
         .success ({ conn with lastTimeAccess := now })
           (refreshEntry c uri.formatDSN conn now)) ∧
    (∀ msg, env.pingOld = some msg → isKilledMsg msg = false →
       getConnection c uri now env =
         .failure (.driver msg) (refreshEntry c uri.formatDSN conn now) ∧
       lookupConn (refreshEntry c uri.formatDSN conn now).connections
           uri.formatDSN = some ({ conn with lastTimeAccess := now })) ∧
    (∀ msg, env.pingOld = some msg → isKilledMsg msg = true →
       env.closeRes = none →
       getConnection c uri now env =
         .failure .connectionKilled
           (dropEntry (refreshEntry c uri.formatDSN conn now) uri.formatDSN) ∧
       lookupConn (dropEntry (refreshEntry c uri.formatDSN conn now)
           uri.formatDSN).connections uri.formatDSN = none) ∧
    (∀ msg cmsg, env.pingOld = some msg → isKilledMsg msg = true →
       env.closeRes = some cmsg →
       getConnection c uri now env =
         .failure (.driver msg) (refreshEntry c uri.formatDSN conn now) ∧
       lookupConn (refreshEntry c uri.formatDSN conn now).connections
           uri.formatDSN = some ({ conn with lastTimeAccess := now })) := by
  have hraw :
      lookupConn (replaceConn c.connections uri.formatDSN
        ({ conn with lastTimeAccess := now })) uri.formatDSN =
      some ({ conn with lastTimeAccess := now }) := by
    rw [lookupConn_replaceConn, hfound]
    rfl
  have hrep :
      lookupConn (refreshEntry c uri.formatDSN conn now).connections
        uri.formatDSN = some ({ conn with lastTimeAccess := now }) := hraw
  refine ⟨?_, ?_, ?_, ?_⟩
  · intro hping
    simp only [getConnection, connGet, refreshEntry, hfound, hping]
  · intro msg hping hkill
    refine ⟨?_, hrep⟩
    simp only [getConnection, connGet, refreshEntry, hfound, hping, hkill,
      Bool.false_eq_true, if_false]
  · intro msg hping hkill hclose
    refine ⟨?_, lookupConn_filterNe _ _⟩
    simp only [getConnection, connGet, connDelete, refreshEntry, dropEntry,
      hfound, hping, hkill, hclose, if_true, hraw]
  · intro msg cmsg hping hkill hclose
    refine ⟨?_, hrep⟩
    simp only [getConnection, connGet, connDelete, refreshEntry, dropEntry,
      hfound, hping, hkill, hclose, if_true, hraw]

/-- Counterexample for C2 as frozen: the identity is present, the re-ping
reports the kill condition, but the close of the handle fails — the
record is then NOT evicted (it is still in the map, with its refreshed
access time) and the error returned is the raw ping error, not
`errorConnectionKilled`. -/
theorem getConnection_killedCloseFail_notEvicted :
    getConnection ⟨[("u@tcp(h:3306)/", ⟨1, 50⟩)], 300, 3, 2⟩
        ⟨"u", "", "tcp", "h:3306", ""⟩ 100
        ⟨none, none, some "Error 1927: Connection was killed",
         some "close failed: handle busy"⟩ =
      .failure (.driver "Error 1927: Connection was killed")
        ⟨[("u@tcp(h:3306)/", ⟨1, 100⟩)], 300, 3, 2⟩ ∧
    DBErr.driver "Error 1927: Connection was killed" ≠ DBErr.connectionKilled ∧
    lookupConn [("u@tcp(h:3306)/", ⟨1, 100⟩)] "u@tcp(h:3306)/" = some ⟨1, 100⟩ := by
  refine ⟨?_, ?_, ?_⟩ <;> decide

/-- Witness for C2 (amended) at a concrete one-entry manager: the
non-kill ping failure preserves the entry, the kill failure with a
successful close evicts it and yields `errorConnectionKilled`. -/
theorem getConnection_presentPath_witness :
    getConnection ⟨[("u@tcp(h:3306)/", ⟨1, 50⟩)], 300, 3, 2⟩
        ⟨"u", "", "tcp", "h:3306", ""⟩ 100
        ⟨none, none, some "invalid connection", none⟩ =
      .failure (.driver "invalid connection")
        ⟨[("u@tcp(h:3306)/", ⟨1, 100⟩)], 300, 3, 2⟩ ∧
    getConnection ⟨[("u@tcp(h:3306)/", ⟨1, 50⟩)], 300, 3, 2⟩
        ⟨"u", "", "tcp", "h:3306", ""⟩ 100
        ⟨none, none, some "Error 1927: Connection was killed", none⟩ =
      .failure .connectionKilled ⟨[], 300, 3, 2⟩ := by
  have h1 := ((getConnection_presentPath
    ⟨[("u@tcp(h:3306)/", ⟨1, 50⟩)], 300, 3, 2⟩ ⟨"u", "", "tcp", "h:3306", ""⟩ 100
    ⟨none, none, some "invalid connection", none⟩ ⟨1, 50⟩ (by decide)).2.1
    "invalid connection" rfl (by decide)).1
  have h2 := ((getConnection_presentPath
    ⟨[("u@tcp(h:3306)/", ⟨1, 50⟩)], 300, 3, 2⟩ ⟨"u", "", "tcp", "h:3306", ""⟩ 100
    ⟨none, none, some "Error 1927: Connection was killed", none⟩ ⟨1, 50⟩
    (by decide)).2.2.1 "Error 1927: Connection was killed" rfl (by decide) rfl).1
  constructor
  · exact h1.trans (by decide)
  · exact h2.trans (by decide)

/-- C7: identity resolution through `getURI` succeeds exactly when the
address parses to scheme `tcp` with a non-empty host or scheme `unix`
with a non-empty (opaque) path; when the parse succeeds but the scheme
is anything else — e.g. `ftp(host)/`, which `url.Parse` does not give a
`tcp`/`unix` scheme — or the matched scheme's host/path is empty, the
result is `errorParameterNotURI` (the spec's `InvalidAddress`). -/
theorem getURI_acceptsOnlyTcpUnix (pr : Except String ParsedURL) :
    ((∃ r, getURI pr = .ok r) ↔
      (∃ u, pr = .ok u ∧
        ((u.scheme = "tcp" ∧ u.host ≠ "") ∨ (u.scheme = "unix" ∧ u.opq ≠ "")))) ∧
    (∀ u, pr = .ok u →
       ¬ ((u.scheme = "tcp" ∧ u.host ≠ "") ∨ (u.scheme = "unix" ∧ u.opq ≠ "")) →
       getURI pr = .error .parameterNotURI) := by
  constructor
  · constructor
    · rintro ⟨r, hr⟩
      match pr with
      | .error e => simp [getURI] at hr
      | .ok u =>
        refine ⟨u, rfl, ?_⟩
        by_cases htcp : u.scheme = "tcp"
        · by_cases hh : u.host = ""
          · simp [getURI, htcp, hh] at hr
          · exact Or.inl ⟨htcp, hh⟩
        · by_cases hux : u.scheme = "unix"
          · by_cases ho : u.opq = ""
            · simp [getURI, htcp, hux, ho] at hr
            · exact Or.inr ⟨hux, ho⟩
          · simp [getURI, htcp, hux] at hr
    · rintro ⟨u, hpr, hgood⟩
      subst hpr
      rcases hgood with ⟨htcp, hh⟩ | ⟨hux, ho⟩
      · exact ⟨⟨u.scheme, u.opq, u.username, u.password, u.host⟩,
          by simp [getURI, htcp, hh]⟩
      · have htcp : u.scheme ≠ "tcp" := by
          rw [hux]; decide
        exact ⟨⟨u.scheme, u.opq, u.username, u.password, u.host⟩,
          by simp [getURI, htcp, hux, ho]⟩
  · intro u hpr hbad
    subst hpr
    push_neg at hbad
    by_cases htcp : u.scheme = "tcp"
    · have hh := hbad.1 htcp
      simp [getURI, htcp, hh]
    · by_cases hux : u.scheme = "unix"
      · have ho := hbad.2 hux
        simp [getURI, htcp, hux, ho]
      · simp [getURI, htcp, hux]

/-- Witness for C7: a URL with a non-`tcp`/`unix` scheme is rejected
with `errorParameterNotURI`, a `tcp` URL with a host is accepted. -/
theorem getURI_acceptsOnlyTcpUnix_witness :
    getURI (.ok ⟨"ftp", "", "", "", "host"⟩) = .error .parameterNotURI ∧
    (∃ r, getURI (.ok ⟨"tcp", "", "", "", "localhost:3306"⟩) = .ok r) :=
  ⟨(getURI_acceptsOnlyTcpUnix (.ok ⟨"ftp", "", "", "", "host"⟩)).2
     ⟨"ftp", "", "", "", "host"⟩ rfl (by decide),
   (getURI_acceptsOnlyTcpUnix (.ok ⟨"tcp", "", "", "", "localhost:3306"⟩)).1.2
     ⟨⟨"tcp", "", "", "", "localhost:3306"⟩, rfl, Or.inl ⟨rfl, by decide⟩⟩⟩

/-- C8: resolving an empty raw target substitutes the plugin-wide default
address (the empty string parses to the driver defaults, so the branch
re-parsing the default URI is taken and its address adopted) and the
plugin-wide default credentials for the empty user and password fields;
the result is the identity of the default target, not an error. -/
theorem newURIWithCreds_emptyTarget (opt : PluginOpts) (c : MysqlConfig)
    (hdef : mysqlParseDSN opt.uri = .ok c) :
    newURIWithCreds "" opt = .ok ⟨opt.user, opt.password, "tcp", c.addr, ""⟩ := by
  have hempty : mysqlParseDSN "" = .ok ⟨"", "", "tcp", "127.0.0.1:3306", ""⟩ := by
    rfl
  simp [newURIWithCreds, hempty, hdef]

/-- Witness for C8 at the shipped defaults
(`tcp(localhost:3306)/`, `root`, `root_pwd`). -/
theorem newURIWithCreds_emptyTarget_witness :
    newURIWithCreds "" ⟨"tcp(localhost:3306)/", "root", "root_pwd"⟩ =
      .ok ⟨"root", "root_pwd", "tcp", "localhost:3306", ""⟩ :=
  newURIWithCreds_emptyTarget ⟨"tcp(localhost:3306)/", "root", "root_pwd"⟩
    ⟨"", "", "tcp", "localhost:3306", ""⟩ (by rfl)

/-- C6: when the key is `mysql.ping` and obtaining a connection fails
with any error, `Export` swallows the error and returns the sentinel
`pingFailed = "0"` with no error. -/
theorem export_pingFailureSentinel (opts : ExportOpts) (env : ExportEnv)
    (p0 : String) (cfg : MysqlConfig) (e : DBErr)
    (hcfg : resolveConfig opts env p0 = .ok cfg)
    (hconn : env.getConnection cfg = .error e) :
    Export opts env "mysql.ping" [p0] = .success pingFailed := by
  simp [Export, keysGet, keysTable, hcfg, hconn]

/-- Witness for C6: a refused connection on `mysql.ping` yields "0". -/
theorem export_pingFailureSentinel_witness :
    Export
      ⟨"tcp(localhost:3306)/", "root", "root_pwd", fun _ => none⟩
      ⟨fun _ => .ok ⟨"root", "root_pwd", "tcp", "localhost:3306", ""⟩,
       fun _ => .error (.driver "dial tcp: connection refused"),
       fun _ _ _ => .ok "", fun _ _ => .ok ""⟩
      "mysql.ping" [""] = .success "0" :=
  export_pingFailureSentinel _ _ ""
    ⟨"root", "root_pwd", "tcp", "localhost:3306", ""⟩
    (.driver "dial tcp: connection refused") rfl rfl

/-- C10: a key that is not in the metric table yields the zero-valued
table entry, whose `minParams` and `maxParams` are both 0, so an empty
parameter slice passes both count checks; `Export` then reads
`params[0]` out of bounds — the call panics instead of returning. -/
theorem export_unknownKeyEmptyParamsPanics (key : String)
    (opts : ExportOpts) (env : ExportEnv)
    (h : keysTable.find? (fun e => e.1 = key) = none) :
    keysGet key = keyZero ∧
    ¬ (List.length ([] : List String) > (keysGet key).maxParams) ∧
    ¬ (List.length ([] : List String) < (keysGet key).minParams) ∧
    Export opts env key [] = .panicked "runtime error: index out of range" := by
  have hz : keysGet key = keyZero := by
    simp [keysGet, h]
  refine ⟨hz, ?_, ?_, ?_⟩
  · simp [hz, keyZero]
  · simp [hz, keyZero]
  · simp [Export, hz, keyZero]

/-- Witness for C10 at the unknown key "mysql.unknown". -/
theorem export_unknownKeyEmptyParamsPanics_witness :
    Export
      ⟨"tcp(localhost:3306)/", "root", "root_pwd", fun _ => none⟩
      ⟨fun _ => .ok ⟨"root", "root_pwd", "tcp", "localhost:3306", ""⟩,
       fun _ => .ok ⟨1, 0⟩, fun _ _ _ => .ok "", fun _ _ => .ok ""⟩
      "mysql.unknown" [] = .panicked "runtime error: index out of range" :=
  (export_unknownKeyEmptyParamsPanics "mysql.unknown" _ _ (by decide)).2.2.2

/-- The rebuilt map of one sweep pass keeps exactly the entries that were
not idle past `keepAlive` or whose close failed. -/
theorem closeUnused_foldl_fst (ka now : Nat) (cr : String → Option String)
    (l : List (String × DbConn)) (acc : List (String × DbConn))
    (er : Option DBErr) :
    (List.foldl (closeUnusedStep ka now cr) (acc, er) l).1 =
      acc ++ l.filter
        (fun e => !(decide (now - e.2.lastTimeAccess > ka) && (cr e.1).isNone)) := by
  induction l generalizing acc er with
  | nil => simp
  | cons x t ih =>
    rw [List.foldl_cons, List.filter_cons]
    by_cases hidle : now - x.2.lastTimeAccess > ka
    · cases hc : cr x.1 with
      | none =>
        simp only [closeUnusedStep, if_pos hidle, hc]
        simp [ih, hidle, hc]
      | some msg =>
        simp only [closeUnusedStep, if_pos hidle, hc]
        simp [ih, hidle, hc]
    · simp only [closeUnusedStep, if_neg hidle]
      simp [ih, hidle]

/-- The error component of one sweep pass is the outcome of the last
attempted close (the loop assigns `err` on every attempt, so a final
successful close resets it to nil). -/
theorem closeUnused_foldl_snd (ka now : Nat) (cr : String → Option String)
    (l : List (String × DbConn)) (acc : List (String × DbConn))
    (er : Option DBErr) :
    (List.foldl (closeUnusedStep ka now cr) (acc, er) l).2 =
      match (l.filter (fun e => decide (now - e.2.lastTimeAccess > ka))).getLast? with
      | none => er
      | some e => (cr e.1).map .driver := by
  induction l generalizing acc er with
  | nil => simp
  | cons x t ih =>
    rw [List.foldl_cons, List.filter_cons]
    by_cases hidle : now - x.2.lastTimeAccess > ka
    · have hstep :
          closeUnusedStep ka now cr (acc, er) x =
            ((closeUnusedStep ka now cr (acc, er) x).1, (cr x.1).map .driver) := by
        cases hc : cr x.1 <;> simp [closeUnusedStep, if_pos hidle, hc]
      rw [hstep, ih]
      simp only [hidle, decide_True, if_pos]
      cases hlast : (t.filter (fun e => decide (now - e.2.lastTimeAccess > ka))) with
      | nil => simp
      | cons z zs =>
        rw [List.getLast?_cons_cons]
        cases hz2 : (z :: zs).getLast? with
        | none => simp at hz2
        | some w => rfl
    · simp only [closeUnusedStep, if_neg hidle, hidle, decide_False]
      rw [ih]
      simp

/-- The map after `closeUnused`, as a filter of the map before. -/
theorem closeUnused_connections (c : ConnManager) (now : Nat)
    (cr : String → Option String) :
    (closeUnused c now cr).1.connections =
      c.connections.filter
        (fun e => !(decide (now - e.2.lastTimeAccess > c.keepAlive) && (cr e.1).isNone)) := by
  simpa [closeUnused] using
    closeUnused_foldl_fst c.keepAlive now cr c.connections [] none

/-- The surfaced error of `closeUnused` is the last attempted close's
outcome. -/
theorem closeUnused_err (c : ConnManager) (now : Nat)
    (cr : String → Option String) :
    (closeUnused c now cr).2 = lastCloseOutcome c now cr := by
  simpa [closeUnused, lastCloseOutcome, sweepAttempts] using
    closeUnused_foldl_snd c.keepAlive now cr c.connections [] none

/-- A sweep never adds entries: absence is preserved. -/
theorem notMem_closeUnused (c : ConnManager) (now : Nat)
    (cr : String → Option String) (e : String × DbConn)
    (h : e ∉ c.connections) : e ∉ (closeUnused c now cr).1.connections := by
  rw [closeUnused_connections]
  intro hmem
  exact h (List.mem_filter.mp hmem).1

/-- Absence is preserved through any sequence of sweeps. -/
theorem notMem_runSweeps (ps : List SweepPass) (c : ConnManager)
    (e : String × DbConn) (h : e ∉ c.connections) :
    e ∉ (runSweeps c ps).connections := by
  induction ps generalizing c with
  | nil => exact h
  | cons p ps ih => exact ih _ (notMem_closeUnused _ _ _ _ h)

/-- An entry that some pass in the sequence finds idle past `keepAlive`
and closes successfully is absent afterwards (`keepAlive` is constant
across sweeps and sweeps never touch a surviving record's timestamp). -/
theorem runSweeps_removesIdle (ps : List SweepPass) (c : ConnManager)
    (k : String) (conn : DbConn)
    (h : ∃ p ∈ ps, p.now - conn.lastTimeAccess > c.keepAlive ∧ p.closeRes k = none) :
    (k, conn) ∉ (runSweeps c ps).connections := by
  induction ps generalizing c with
  | nil => simp at h
  | cons p ps ih =>
    obtain ⟨q, hq, hidle, hclose⟩ := h
    rcases List.mem_cons.mp hq with rfl | hq'
    · have hout : (k, conn) ∉ (closeUnused c q.now q.closeRes).1.connections := by
        rw [closeUnused_connections]
        intro hmem
        have := (List.mem_filter.mp hmem).2
        simp [hidle, hclose] at this
      exact notMem_runSweeps ps _ _ hout
    · by_cases hmem : (k, conn) ∈ (closeUnused c p.now p.closeRes).1.connections
      · exact ih _ ⟨q, hq', hidle, hclose⟩
      · exact notMem_runSweeps ps _ _ hmem

/-- C4: a sweep never closes (nor even attempts to close) a record whose
`lastTimeAccess` is within `keepAlive` of the sweep time — the entry
survives unchanged; every record idle strictly longer than `keepAlive` is
attempted, is removed when its close succeeds, and is retained for the
next pass when its close fails; across repeated passes, any pass that
finds the record idle and closes it successfully removes it for good. -/
theorem closeUnused_idlePolicy (c : ConnManager) (now : Nat)
    (cr : String → Option String) (k : String) (conn : DbConn)
    (hmem : (k, conn) ∈ c.connections) :
    (now - conn.lastTimeAccess ≤ c.keepAlive →
       (k, conn) ∈ (closeUnused c now cr).1.connections ∧
       (k, conn) ∉ sweepAttempts c now) ∧
    (now - conn.lastTimeAccess > c.keepAlive →
       (k, conn) ∈ sweepAttempts c now ∧
       (cr k = none → (k, conn) ∉ (closeUnused c now cr).1.connections) ∧
       (cr k ≠ none → (k, conn) ∈ (closeUnused c now cr).1.connections)) ∧
    (∀ ps : List SweepPass,
       (∃ p ∈ ps, p.now - conn.lastTimeAccess > c.keepAlive ∧ p.closeRes k = none) →
       (k, conn) ∉ (runSweeps c ps).connections) := by
  refine ⟨?_, ?_, fun ps h => runSweeps_removesIdle ps c k conn h⟩
  · intro hfresh
    have hnot : ¬ (now - conn.lastTimeAccess > c.keepAlive) := by omega
    constructor
    · rw [closeUnused_connections]
      exact List.mem_filter.mpr ⟨hmem, by simp [hnot]⟩
    · intro hin
      exact hnot (by simpa using (List.mem_filter.mp hin).2)
  · intro hidle
    refine ⟨List.mem_filter.mpr ⟨hmem, by simpa using hidle⟩, ?_, ?_⟩
    · intro hok hin
      rw [closeUnused_connections] at hin
      have := (List.mem_filter.mp hin).2
      simp [hidle, hok] at this
    · intro hfail
      rw [closeUnused_connections]
      refine List.mem_filter.mpr ⟨hmem, ?_⟩
      cases hc : cr k with
      | none => exact absurd hc hfail
      | some m => simp [hidle, hc]

/-- Witness for C4 with `keepAlive = 300` at sweep time 400: the record
idle for 400 seconds is removed (also by a full sweep pass), the record
accessed 100 seconds ago survives. -/
theorem closeUnused_idlePolicy_witness :
    ("b", ⟨2, 300⟩) ∈
      (closeUnused ⟨[("a", ⟨1, 0⟩), ("b", ⟨2, 300⟩)], 300, 3, 3⟩ 400
        (fun _ => none)).1.connections ∧
    ("a", ⟨1, 0⟩) ∉
      (closeUnused ⟨[("a", ⟨1, 0⟩), ("b", ⟨2, 300⟩)], 300, 3, 3⟩ 400
        (fun _ => none)).1.connections ∧
    ("a", ⟨1, 0⟩) ∉
      (runSweeps ⟨[("a", ⟨1, 0⟩), ("b", ⟨2, 300⟩)], 300, 3, 3⟩
        [⟨400, fun _ => none⟩]).connections :=
  ⟨((closeUnused_idlePolicy ⟨[("a", ⟨1, 0⟩), ("b", ⟨2, 300⟩)], 300, 3, 3⟩ 400
      (fun _ => none) "b" ⟨2, 300⟩ (by decide)).1 (by decide)).1,
   ((closeUnused_idlePolicy ⟨[("a", ⟨1, 0⟩), ("b", ⟨2, 300⟩)], 300, 3, 3⟩ 400
      (fun _ => none) "a" ⟨1, 0⟩ (by decide)).2.1 (by decide)).2.1 rfl,
   (closeUnused_idlePolicy ⟨[("a", ⟨1, 0⟩), ("b", ⟨2, 300⟩)], 300, 3, 3⟩ 400
      (fun _ => none) "a" ⟨1, 0⟩ (by decide)).2.2 [⟨400, fun _ => none⟩]
      ⟨⟨400, fun _ => none⟩, List.mem_singleton.mpr rfl, by decide, rfl⟩⟩

/-- C5 (amended): `closeUnused` surfaces the outcome of the last close
it attempted in the pass — `none` when that last attempt succeeded, even
if an earlier close in the same pass failed (errors are not aggregated,
and an earlier error can be masked by a later successful close) — and
every record whose close failed remains in the map, so the next sweep
retries it. -/
theorem closeUnused_lastAttemptOutcome (c : ConnManager) (now : Nat)
    (cr : String → Option String) :
    (closeUnused c now cr).2 = lastCloseOutcome c now cr ∧
    (∀ k conn, (k, conn) ∈ c.connections →
       now - conn.lastTimeAccess > c.keepAlive → cr k ≠ none →
       (k, conn) ∈ (closeUnused c now cr).1.connections) := by
  refine ⟨closeUnused_err c now cr, fun k conn hmem hidle hfail => ?_⟩
  rw [closeUnused_connections]
  refine List.mem_filter.mpr ⟨hmem, ?_⟩
  cases hc : cr k with
  | none => exact absurd hc hfail
  | some m => simp [hidle, hc]

/-- Counterexample for C5 as frozen: a pass in which the close of record
"a" fails ("device busy") but the later close of record "b" succeeds
surfaces NO error at all (`none`), not the pass's last error — the
failure is masked by the final successful attempt.  Record "a" does
remain in the map. -/
theorem closeUnused_errorMasked :
    (closeUnused ⟨[("a", ⟨1, 0⟩), ("b", ⟨2, 50⟩)], 300, 3, 3⟩ 400
      (fun k => if k = "a" then some "device busy" else none)).2 = none ∧
    (fun k => if k = "a" then some "device busy" else none) "a" =
      some "device busy" ∧
    ("a", ⟨1, 0⟩) ∈
      sweepAttempts ⟨[("a", ⟨1, 0⟩), ("b", ⟨2, 50⟩)], 300, 3, 3⟩ 400 ∧
    ("b", ⟨2, 50⟩) ∈
      sweepAttempts ⟨[("a", ⟨1, 0⟩), ("b", ⟨2, 50⟩)], 300, 3, 3⟩ 400 ∧
    ("a", ⟨1, 0⟩) ∈
      (closeUnused ⟨[("a", ⟨1, 0⟩), ("b", ⟨2, 50⟩)], 300, 3, 3⟩ 400
        (fun k => if k = "a" then some "device busy" else none)).1.connections := by
  refine ⟨?_, ?_, ?_, ?_, ?_⟩ <;> decide

/-- Witness for C5 (amended): when the failing close is the last attempt
of the pass, its error is surfaced and the record is retained. -/
theorem closeUnused_lastAttemptOutcome_witness :
    (closeUnused ⟨[("b", ⟨2, 50⟩), ("a", ⟨1, 0⟩)], 300, 3, 3⟩ 400
      (fun k => if k = "a" then some "device busy" else none)).2 =
      some (.driver "device busy") ∧
    ("a", ⟨1, 0⟩) ∈
      (closeUnused ⟨[("b", ⟨2, 50⟩), ("a", ⟨1, 0⟩)], 300, 3, 3⟩ 400
        (fun k => if k = "a" then some "device busy" else none)).1.connections :=
  ⟨((closeUnused_lastAttemptOutcome ⟨[("b", ⟨2, 50⟩), ("a", ⟨1, 0⟩)], 300, 3, 3⟩
      400 (fun k => if k = "a" then some "device busy" else none)).1).trans
     (by decide),
   (closeUnused_lastAttemptOutcome ⟨[("b", ⟨2, 50⟩), ("a", ⟨1, 0⟩)], 300, 3, 3⟩
      400 (fun k => if k = "a" then some "device busy" else none)).2
     "a" ⟨1, 0⟩ (by decide) (by decide) (by decide)⟩
